import Mathlib

/-!
Shallow embedding of `book_to_md.py`: a converter that turns a paginated
document into Markdown by inferring structure from font metrics.

Modelling conventions:
* Python floats (font sizes, page coordinates) are modelled as `ℚ`.
* Python strings are Lean `String`s; `str.strip`, `str.lower`,
  `str.endswith` and the regex `\s+ -> " "` substitution are re-implemented
  below over `List Char` (ASCII fragment, which is what the program's
  whitespace handling and file-name tests exercise).
* The pipeline always calls the analyzer with
  `include_granular_details=False`, so a font identifier is `str(size)`.
  Since `str` and `float` are mutually inverse on these values, the
  identifier is modelled by the size itself (a `ℚ`).
* Python dicts are modelled as insertion-ordered association lists:
  updating an existing key keeps its position, a new key is appended.
* The Markdown tag strings `"<p>"`, `"<code>"`, `"<s>"`, `"<h{n}>"` are
  modelled by the inductive type `Tag`.  For these strings the substring
  dispatch of the formatter (`"<code>" in tag`, `"<h" in tag`,
  `"<s>" in tag`, first digit run of the tag) coincides with matching on
  the constructor, and `tag.startswith('<h')` with being a `header`.
-/

/-- Python whitespace test for the characters the program manipulates:
`str.strip()` and the regex class `\s` on the ASCII range. -/
def isWs (c : Char) : Bool :=
  c = ' ' || c = '\t' || c = '\n' || c = '\r' || c = '\x0b' || c = '\x0c'

/-- `str.strip()` on the character list: drop whitespace from both ends. -/
def trimChars (l : List Char) : List Char :=
  ((l.dropWhile isWs).reverse.dropWhile isWs).reverse

/-- `re.sub(r'\s+', ' ', s)` on the character list: the flag records whether
the previous character was whitespace (so a run contributes one space). -/
def collapseAux : Bool → List Char → List Char
  | _, [] => []
  | prevWs, c :: rest =>
    if isWs c then (if prevWs then [] else [' ']) ++ collapseAux true rest
    else c :: collapseAux false rest

/-- `s.strip()`. -/
def pyStrip (s : String) : String := String.mk (trimChars s.toList)

/-- `re.sub(r'\s+', ' ', s)`. -/
def pyCollapseWs (s : String) : String := String.mk (collapseAux false s.toList)

/-- `s.lower()` (ASCII). -/
def pyLower (s : String) : String := String.mk (s.toList.map Char.toLower)

/-- Character-list comparison: does `hay` start with `pat`? -/
def leadEq : List Char → List Char → Bool
  | [], _ => true
  | _ :: _, [] => false
  | a :: as, b :: bs => a = b && leadEq as bs

/-- `pat in hay` for Python strings: `pat` occurs as a contiguous substring. -/
def hasSubList (pat : List Char) : List Char → Bool
  | [] => leadEq pat []
  | c :: rest => leadEq pat (c :: rest) || hasSubList pat rest

/-- `pat in hay` (Python substring containment). -/
def hasSub (hay pat : String) : Bool := hasSubList pat.toList hay.toList

/-- `s.endswith(pat)`. -/
def pyEndsWith (s pat : String) : Bool :=
  leadEq pat.toList.reverse s.toList.reverse

/-- Markdown structural tags.  Models the strings
`"<p>"`, `"<code>"`, `"<s>"` and `"<h{n}>"` of the source. -/
inductive Tag where
  | paragraph : Tag
  | code : Tag
  | small : Tag
  | header : ℕ → Tag
deriving DecidableEq

/-- `tag.startswith('<h')` on the tag strings produced by the program. -/
def isHeaderTag : Tag → Bool
  | Tag.header _ => true
  | _ => false

/-- `FontMetrics`: font style information extracted from a document. -/
structure FontMetrics where
  size : ℚ
  font : String
  flags : ℤ := 0
  color : ℤ := 0
deriving DecidableEq

/-- `FontMetrics.create_identifier` in the size-only mode used by the
pipeline (`include_color_and_flags=False`): `str(self.size)`, modelled by
the size itself. -/
def FontMetrics.create_identifier (m : FontMetrics) : ℚ := m.size

/-- A text run as reported by the decoding layer: one entry of
`line["spans"]`, carrying `{text, size, font, flags, color}`. -/
structure Span where
  text : String
  size : ℚ
  font : String
  flags : ℤ := 0
  color : ℤ := 0
deriving DecidableEq

/-- `extract_font_metrics_from_span`. -/
def extract_font_metrics_from_span (sp : Span) (include_granular_details : Bool) :
    FontMetrics :=
  { size := sp.size
    font := sp.font
    flags := if include_granular_details then sp.flags else 0
    color := if include_granular_details then sp.color else 0 }

/-- One entry of `block["lines"]`. -/
structure Line where
  spans : List Span
deriving DecidableEq

/-- Bounding box of a block; the program reads `bbox[1]` (here `y0`) and
`bbox[3]` (here `y1`). -/
structure BBox where
  x0 : ℚ
  y0 : ℚ
  x1 : ℚ
  y1 : ℚ
deriving DecidableEq

/-- One entry of `page.get_text("dict")["blocks"]`. -/
structure Block where
  btype : ℕ
  bbox : BBox
  lines : List Line
deriving DecidableEq

/-- `TEXT_BLOCK_TYPE = 0`. -/
def TEXT_BLOCK_TYPE : ℕ := 0

/-- A page: its `rect.height` and its decoded blocks.  `none` models
`page.get_text("dict")` raising (the program skips such pages). -/
structure Page where
  height : ℚ
  blocks : Option (List Block)
deriving DecidableEq

/-- A decoded document: `document.name` and its pages. -/
structure Doc where
  name : String
  pages : List Page
deriving DecidableEq

/-- Association-list lookup, i.e. `d[k]` / `k in d` for a Python dict. -/
def lookupStyle (fs : List (ℚ × FontMetrics)) (id : ℚ) : Option FontMetrics :=
  (fs.find? (fun e => decide (e.1 = id))).map (·.2)

/-- `d.get(k, default)`-style lookup for the size→tag dict. -/
def dictGet (d : List (ℚ × Tag)) (k : ℚ) : Option Tag :=
  (d.find? (fun e => decide (e.1 = k))).map (·.2)

/-- `d[k] = v` on an insertion-ordered dict: update in place or append. -/
def dictSet (d : List (ℚ × FontMetrics)) (k : ℚ) (v : FontMetrics) :
    List (ℚ × FontMetrics) :=
  match d with
  | [] => [(k, v)]
  | (k', v') :: rest =>
    if k' = k then (k, v) :: rest else (k', v') :: dictSet rest k v

/-- `d[k] = d.get(k, 0) + 1` on an insertion-ordered dict. -/
def dictBump (d : List (ℚ × ℕ)) (k : ℚ) : List (ℚ × ℕ) :=
  match d with
  | [] => [(k, 1)]
  | (k', c) :: rest =>
    if k' = k then (k', c + 1) :: rest else (k', c) :: dictBump rest k

/-- `DocumentFontAnalysis`: results of analyzing fonts in a document. -/
structure DocumentFontAnalysis where
  font_frequencies : List (ℚ × ℕ)
  font_styles : List (ℚ × FontMetrics)
deriving DecidableEq

/-- `DocumentFontAnalysis.is_empty`. -/
def DocumentFontAnalysis.is_empty (a : DocumentFontAnalysis) : Bool :=
  a.font_frequencies.isEmpty

/-- Innermost statement pair of `analyze_document_fonts`' loop body:
record the metrics and bump the per-identifier counter. -/
def analyzeSpanStep (acc : List (ℚ × FontMetrics) × List (ℚ × ℕ)) (sp : Span) :
    List (ℚ × FontMetrics) × List (ℚ × ℕ) :=
  let metrics := extract_font_metrics_from_span sp false
  let identifier := metrics.create_identifier
  (dictSet acc.1 identifier metrics, dictBump acc.2 identifier)

/-- `for span in line["spans"]` of the analyzer. -/
def analyzeLineStep (acc : List (ℚ × FontMetrics) × List (ℚ × ℕ)) (ln : Line) :
    List (ℚ × FontMetrics) × List (ℚ × ℕ) :=
  ln.spans.foldl analyzeSpanStep acc

/-- `for block in blocks` of the analyzer, skipping non-text blocks. -/
def analyzeBlockStep (acc : List (ℚ × FontMetrics) × List (ℚ × ℕ)) (b : Block) :
    List (ℚ × FontMetrics) × List (ℚ × ℕ) :=
  if b.btype = TEXT_BLOCK_TYPE then b.lines.foldl analyzeLineStep acc else acc

/-- `for page in doc` of the analyzer; a failing `get_text` is skipped. -/
def analyzePageStep (acc : List (ℚ × FontMetrics) × List (ℚ × ℕ)) (p : Page) :
    List (ℚ × FontMetrics) × List (ℚ × ℕ) :=
  match p.blocks with
  | none => acc
  | some bs => bs.foldl analyzeBlockStep acc

/-- `analyze_document_fonts` (pipeline mode, `include_granular_details=False`).
`sorted(font_count_map.items(), key=itemgetter(1), reverse=True)` is a stable
descending sort by count, modelled by insertion sort with `b.2 ≤ a.2`. -/
def analyze_document_fonts (doc : Doc) : DocumentFontAnalysis :=
  let acc := doc.pages.foldl analyzePageStep ([], [])
  { font_frequencies := List.insertionSort (fun a b => b.2 ≤ a.2) acc.2
    font_styles := acc.1 }

/-- `_extract_paragraph_size`: size of the metrics entry of the most
frequent identifier.  `none` models the Python `IndexError`/`KeyError`. -/
def _extract_paragraph_size (ff : List (ℚ × ℕ)) (fs : List (ℚ × FontMetrics)) :
    Option ℚ :=
  match ff with
  | [] => none
  | (id, _) :: _ => (lookupStyle fs id).map (·.size)

/-- `_extract_unique_font_sizes`: the distinct sizes of the frequency
table, sorted descending (`list(set(..))` followed by `sort(reverse=True)`;
the intermediate set order is irrelevant to the sorted result). -/
def _extract_unique_font_sizes (ff : List (ℚ × ℕ)) : List ℚ :=
  List.insertionSort (fun a b => b ≤ a) ((ff.map Prod.fst).dedup)

/-- `_determine_tag_for_size`. -/
def _determine_tag_for_size (size paragraph_size : ℚ) (header_level : ℕ)
    (fs : List (ℚ × FontMetrics)) : Tag :=
  match lookupStyle fs size with
  | none => Tag.paragraph
  | some font_style =>
    if font_style.size = paragraph_size then Tag.paragraph
    else if paragraph_size < font_style.size then Tag.header (header_level + 1)
    else Tag.small

/-- The `for size in font_sizes` loop of `build_from_fonts`, threading the
`header_level` counter (incremented exactly when the tag starts with `<h`). -/
def buildLoop (fs : List (ℚ × FontMetrics)) (paragraph_size : ℚ) :
    List ℚ → ℕ → List (ℚ × Tag)
  | [], _ => []
  | s :: rest, header_level =>
    let t := _determine_tag_for_size s paragraph_size header_level fs
    (s, t) :: buildLoop fs paragraph_size rest
      (if isHeaderTag t then header_level + 1 else header_level)

/-- `FontSizeTagMapping.build_from_fonts`.  The produced dict has the
distinct sizes as keys, in the descending order they are visited; `none`
models the uncaught `KeyError` when the most frequent identifier has no
metrics entry. -/
def build_from_fonts (ff : List (ℚ × ℕ)) (fs : List (ℚ × FontMetrics)) :
    Option (List (ℚ × Tag)) :=
  if ff.isEmpty then some []
  else
    match _extract_paragraph_size ff fs with
    | none => none
    | some ps => some (buildLoop fs ps (_extract_unique_font_sizes ff) 0)

/-- `PageMargins` with the PDF defaults `PDF_HEADER_MARGIN`/`PDF_FOOTER_MARGIN`. -/
structure PageMargins where
  header : ℚ := 50
  footer : ℚ := 50
deriving DecidableEq

/-- `TextSpan`: extracted text with its formatting tag. -/
structure TextSpan where
  tag : Tag
  content : String
deriving DecidableEq

/-- `DocumentProcessor.should_skip_margin_filtering`; the Python method
receives the `fitz.Document` and reads its `name` attribute. -/
def should_skip_margin_filtering (docName : String) : Bool :=
  !(pyEndsWith (pyLower docName) ".pdf")

/-- `DocumentProcessor.is_code_font`: `CODE_FONT_KEYWORDS` membership,
case-insensitive substring test. -/
def CODE_FONT_KEYWORDS : List String := ["mono", "courier", "code", "consolas"]

/-- `DocumentProcessor.is_code_font`. -/
def is_code_font (font_name : String) : Bool :=
  CODE_FONT_KEYWORDS.any (fun keyword => hasSub (pyLower font_name) keyword)

/-- `DocumentProcessor.get_margins_for_document`. -/
def get_margins_for_document (docName : String) : PageMargins :=
  if should_skip_margin_filtering docName then ⟨0, 0⟩ else {}

/-- `DocumentProcessor._get_span_tag`. -/
def _get_span_tag (size_tag : List (ℚ × Tag)) (sp : Span) : Tag :=
  if is_code_font sp.font then Tag.code
  else (dictGet size_tag sp.size).getD Tag.paragraph

/-- `DocumentProcessor._append_to_block`.  The Python code reads
`previous_span['font']`; on the initial empty dict this would raise, but
every call site runs after `first_span` was cleared, which happens only
once `previous_span` holds a real span — the `none` branch is dead. -/
def _append_to_block (current_content : String) (current_span : Span)
    (previous_span : Option Span) : String :=
  if current_span.text = " " then current_content
  else
    match previous_span with
    | none => current_content
    | some prev =>
      if prev.font = current_span.font then
        current_content ++ (if current_span.text ≠ "" then " " ++ current_span.text else "")
      else current_content ++ " " ++ current_span.text

/-- The mutable locals of `extract_text_with_tags`. -/
structure ExtractState where
  first_span : Bool
  previous_span : Option Span
  /-- Python initialises `current_block_tag` to `""`; that sentinel is never
  emitted because every emission is guarded by the accumulated content being
  non-blank, which cannot hold before the first span assigns a real tag, so
  any initial `Tag` value yields the same observable behaviour. -/
  current_block_tag : Tag
  current_block_content : String
  text_spans : List TextSpan
deriving DecidableEq

/-- `if current_block_content.strip():` — non-blankness test. -/
def stripNonEmpty (s : String) : Bool := !(trimChars s.toList).isEmpty

/-- Initial state of the extraction loop. -/
def initExtractState : ExtractState :=
  ⟨true, none, Tag.paragraph, "", []⟩

/-- `for span in line["spans"]` body of `extract_text_with_tags`. -/
def processSpan (size_tag : List (ℚ × Tag)) (st : ExtractState) (sp : Span) :
    ExtractState :=
  let span_tag := _get_span_tag size_tag sp
  if st.first_span then
    { st with
        first_span := false
        previous_span := some sp
        current_block_tag := span_tag
        current_block_content := sp.text }
  else if span_tag = st.current_block_tag then
    { st with
        current_block_content :=
          _append_to_block st.current_block_content sp st.previous_span
        previous_span := some sp }
  else
    { st with
        text_spans :=
          if stripNonEmpty st.current_block_content then
            st.text_spans ++ [⟨st.current_block_tag, st.current_block_content⟩]
          else st.text_spans
        current_block_content := sp.text
        current_block_tag := span_tag
        previous_span := some sp }

/-- `for line in block["lines"]`. -/
def processLine (size_tag : List (ℚ × Tag)) (st : ExtractState) (ln : Line) :
    ExtractState :=
  ln.spans.foldl (processSpan size_tag) st

/-- The statements after the line loop, still inside `for block in blocks`:
flush the accumulator when its stripped content is non-empty. -/
def blockEnd (st : ExtractState) : ExtractState :=
  if stripNonEmpty st.current_block_content then
    { st with
        text_spans := st.text_spans ++ [⟨st.current_block_tag, st.current_block_content⟩]
        current_block_content := "" }
  else st

/-- `for block in blocks` body of `extract_text_with_tags`: skip non-text
blocks, apply the PDF header/footer margin filter, process the lines, then
flush the accumulator at the end of the block. -/
def processBlock (size_tag : List (ℚ × Tag)) (docName : String)
    (margins : PageMargins) (page_height : ℚ) (st : ExtractState) (b : Block) :
    ExtractState :=
  if b.btype ≠ TEXT_BLOCK_TYPE then st
  else if should_skip_margin_filtering docName = false ∧
      (b.bbox.y0 < margins.header ∨ page_height - margins.footer < b.bbox.y1) then st
  else blockEnd (b.lines.foldl (processLine size_tag) st)

/-- `for page in document` body; a page whose `get_text` raises is skipped. -/
def processPage (size_tag : List (ℚ × Tag)) (docName : String)
    (margins : PageMargins) (st : ExtractState) (p : Page) : ExtractState :=
  match p.blocks with
  | none => st
  | some bs => bs.foldl (processBlock size_tag docName margins p.height) st

/-- `DocumentProcessor.extract_text_with_tags`. -/
def extract_text_with_tags (doc : Doc) (size_tag : List (ℚ × Tag)) :
    List TextSpan :=
  let margins := get_margins_for_document doc.name
  (doc.pages.foldl (processPage size_tag doc.name margins) initExtractState).text_spans

/-- The per-run state of `format_markdown`. -/
structure FmtState where
  markdown_output : String
  in_code_block : Bool
deriving DecidableEq

/-- `_append_code_block`. -/
def _append_code_block (output content : String) (in_code_block : Bool) : String :=
  (if !in_code_block then output ++ "\n```\n" else output) ++ content ++ "\n"

/-- `_append_header`.  For a tag `<h{L}>` the first digit run found by
`re.findall(r'\d+', tag)` is the decimal representation of `L`, so the
`IndexError` fallback is unreachable; `MAX_HEADER_LEVEL = 4`. -/
def _append_header (output : String) (level : ℕ) (content : String) : String :=
  output ++ "\n" ++ String.mk (List.replicate (min level 4) '#') ++ " " ++ content ++ "\n\n"

/-- `_append_formatted_content`: `"<h" in tag` picks headers, `"<s>" in tag`
picks small text, anything else is a plain paragraph. -/
def _append_formatted_content (output : String) (tag : Tag) (content : String) :
    String :=
  match tag with
  | Tag.header level => _append_header output level content
  | Tag.small => output ++ "*" ++ content ++ "*\n\n"
  | _ => output ++ content ++ "\n\n"

/-- The body of `format_markdown`'s `for text_span in text_spans` loop. -/
def formatStep (st : FmtState) (ts : TextSpan) : FmtState :=
  let content := pyStrip ts.content
  if content = "" then st
  else
    let content := pyCollapseWs content
    if ts.tag = Tag.code then
      { markdown_output := _append_code_block st.markdown_output content st.in_code_block
        in_code_block := true }
    else
      let st' :=
        if st.in_code_block then
          { markdown_output := st.markdown_output ++ "```\n\n", in_code_block := false }
        else st
      { st' with
          markdown_output := _append_formatted_content st'.markdown_output ts.tag content }

/-- `format_markdown`. -/
def format_markdown (text_spans : List TextSpan) : String :=
  let st := text_spans.foldl formatStep ⟨"", false⟩
  if st.in_code_block then st.markdown_output ++ "```\n" else st.markdown_output

/-- Zero extractable text runs: every decodable page's text blocks carry no
spans (this is exactly what makes the analyzer's tables stay empty). -/
def noRuns (doc : Doc) : Prop :=
  ∀ p ∈ doc.pages, ∀ b ∈ p.blocks.getD [], b.btype = TEXT_BLOCK_TYPE →
    ∀ ln ∈ b.lines, ln.spans = []

instance (doc : Doc) : Decidable (noRuns doc) := by
  unfold noRuns; infer_instance

/-- Outcome of `fitz.open`: a decoded document, or any decode failure
(which the generic `except` branch reports). -/
inductive OpenResult where
  | ok : Doc → OpenResult
  | failure : OpenResult
deriving DecidableEq

/-- Observable outcome of `convert_document_to_markdown`:
whether `FileNotFoundError` escaped to the caller, the user-facing error
message printed (if any), and the content written to the output file
(if any). -/
structure ConvertResult where
  notFoundRaised : Bool
  printedError : Option String
  written : Option String
deriving DecidableEq

/-- `convert_document_to_markdown`, over the IO facts it consumes: whether
`os.path.exists(file_path)` holds and what `fitz.open` yields.  A `ValueError`
is printed as `Error: {ve}`; any other exception (decode failure, or the
`KeyError` a metrics-less most-frequent identifier would raise) lands in the
generic handler, printed as `Error processing file`. -/
def convert_document_to_markdown (pathExists : Bool) (opened : OpenResult) :
    ConvertResult :=
  if !pathExists then ⟨true, none, none⟩
  else
    match opened with
    | OpenResult.failure => ⟨false, some "Error processing file", none⟩
    | OpenResult.ok doc =>
      let font_analysis := analyze_document_fonts doc
      if font_analysis.is_empty then
        ⟨false, some "No text found. This document might be scanned (images only).", none⟩
      else
        match build_from_fonts font_analysis.font_frequencies font_analysis.font_styles with
        | none => ⟨false, some "Error processing file", none⟩
        | some size_tag =>
          ⟨false, none, some (format_markdown (extract_text_with_tags doc size_tag))⟩

/-- The backtick character of the Markdown fence marker. -/
def tickChar : Char := Char.ofNat 96

/-- Number of backticks in a string; each emitted fence marker contributes
exactly three, so balanced fences make this a multiple of six. -/
def countTick (s : String) : ℕ := s.toList.count tickChar

/-- Pure description of `build_from_fonts`' size walk, phrased on the size
comparisons alone (valid once every size has a metrics entry recording that
same size). -/
def tagLoopSpec (ps : ℚ) : List ℚ → ℕ → List (ℚ × Tag)
  | [], _ => []
  | s :: r, hl =>
    if s = ps then (s, Tag.paragraph) :: tagLoopSpec ps r hl
    else if ps < s then (s, Tag.header (hl + 1)) :: tagLoopSpec ps r (hl + 1)
    else (s, Tag.small) :: tagLoopSpec ps r hl

/-- The size-only well-formedness of a font analysis: every identifier of
the frequency table has a metrics entry whose size is the identifier. -/
def sizeKeyed (ff : List (ℚ × ℕ)) (fs : List (ℚ × FontMetrics)) : Prop :=
  ∀ e ∈ ff, (lookupStyle fs e.1).map FontMetrics.size = some e.1

instance (ff : List (ℚ × ℕ)) (fs : List (ℚ × FontMetrics)) :
    Decidable (sizeKeyed ff fs) := by
  unfold sizeKeyed; infer_instance

/-- A one-page document with two text blocks, each holding a single run of
the same font and size, used to probe the flush policy of the extractor. -/
def docTwoBlocks : Doc :=
  ⟨"book.epub",
    [⟨800, some
      [⟨0, ⟨0, 100, 10, 110⟩, [⟨[⟨"A", 12, "F", 0, 0⟩]⟩]⟩,
       ⟨0, ⟨0, 120, 10, 130⟩, [⟨[⟨"B", 12, "F", 0, 0⟩]⟩]⟩]⟩]⟩

example : pyStrip "  a  b " = "a  b" := by decide
example : pyCollapseWs "a \t b" = "a b" := by decide
example : hasSub "Consolas-Bold" "Bold" = true := by decide
example : pyEndsWith "book.PDF" ".pdf" = false := by decide
example : pyEndsWith (pyLower "book.PDF") ".pdf" = true := by decide
example :
    build_from_fonts [(12, 5), (18, 2), (9, 1)]
      [(12, ⟨12, "Body", 0, 0⟩), (18, ⟨18, "Title", 0, 0⟩), (9, ⟨9, "Note", 0, 0⟩)] =
    some [(18, Tag.header 1), (12, Tag.paragraph), (9, Tag.small)] := by decide

example :
    extract_text_with_tags
      ⟨"b.epub", [⟨800, some [⟨0, ⟨0, 100, 10, 110⟩,
        [⟨[⟨"Hello", 12, "F", 0, 0⟩, ⟨"World", 12, "F", 0, 0⟩]⟩]⟩]⟩]⟩
      [(12, Tag.paragraph)] =
    [⟨Tag.paragraph, "Hello World"⟩] := by decide

example :
    format_markdown [⟨Tag.code, "x = 1"⟩, ⟨Tag.header 2, "T"⟩] =
    "\n```\nx = 1\n```\n\n\n## T\n\n" := by decide

example :
    format_markdown [⟨Tag.paragraph, "p"⟩, ⟨Tag.code, "c"⟩] =
    "p\n\n\n```\nc\n```\n" := by decide

example :
    convert_document_to_markdown true (OpenResult.ok ⟨"s.pdf", [⟨800, some []⟩]⟩) =
    ⟨false, some "No text found. This document might be scanned (images only).", none⟩ := by
  decide

/-! ## Auxiliary lemmas -/

lemma strAppend_assoc (a b c : String) : a ++ b ++ c = a ++ (b ++ c) := by
  apply String.ext
  simp [String.data_append]

lemma strToList_append (a b : String) : (a ++ b).toList = a.toList ++ b.toList := by
  simp [String.toList, String.data_append]

lemma fenceNewline_merge (y : String) :
    ("```\n\n" : String) ++ ("\n" ++ y) = "```\n\n\n" ++ y := by
  rw [← strAppend_assoc]
  congr 1

/-! ## C9: blank spans are skipped by the formatter -/

/-- C9: a span whose content is empty after trimming produces no Markdown
output and no state transition in `format_markdown`: `formatStep` returns
the state unchanged (in particular an open code fence stays open). -/
theorem formatStep_skips_blank (st : FmtState) (ts : TextSpan)
    (h : pyStrip ts.content = "") : formatStep st ts = st := by
  simp [formatStep, h]

theorem formatStep_skips_blank_w :
    formatStep ⟨"x\n", true⟩ ⟨Tag.paragraph, " \t "⟩ = ⟨"x\n", true⟩ :=
  formatStep_skips_blank ⟨"x\n", true⟩ ⟨Tag.paragraph, " \t "⟩ (by decide)

/-! ## C8: header rendering and level capping -/

/-- C8: a span tagged `header L` is rendered as `'#'` repeated `min L 4`,
a single space, and the cleaned content, preceded by a newline and followed
by a blank line (after closing any open code fence); the hash count never
exceeds 4, so no level-5+ Markdown heading is emitted. -/
theorem header_render (st : FmtState) (L : ℕ) (c : String)
    (h : pyStrip c ≠ "") :
    (formatStep st ⟨Tag.header L, c⟩).markdown_output =
      st.markdown_output ++ (if st.in_code_block then "```\n\n" else "") ++
        ("\n" ++ String.mk (List.replicate (min L 4) '#') ++ " " ++
          pyCollapseWs (pyStrip c) ++ "\n\n") ∧
    min L 4 ≤ 4 ∧
    (formatStep st ⟨Tag.header L, c⟩).in_code_block = false := by
  refine ⟨?_, Nat.min_le_right _ _, ?_⟩ <;>
    cases hc : st.in_code_block <;>
      simp [formatStep, h, _append_formatted_content, _append_header, hc,
        strAppend_assoc, fenceNewline_merge]

theorem header_render_w :
    (formatStep ⟨"", false⟩ ⟨Tag.header 7, "Title"⟩).markdown_output =
      "" ++ (if (⟨"", false⟩ : FmtState).in_code_block then "```\n\n" else "") ++
        ("\n" ++ String.mk (List.replicate (min 7 4) '#') ++ " " ++
          pyCollapseWs (pyStrip "Title") ++ "\n\n") ∧
    min 7 4 ≤ 4 ∧
    (formatStep ⟨"", false⟩ ⟨Tag.header 7, "Title"⟩).in_code_block = false :=
  header_render ⟨"", false⟩ 7 "Title" (by decide)

/-! ## C4: spacing rule of `_append_to_block` -/

/-- C4: merging a subsequent same-tag run — a run whose raw text is exactly
a single space leaves the accumulated content unchanged; otherwise, with a
previous run of the same font and a non-empty text, exactly one space is
inserted between the accumulated content and the appended text. -/
theorem append_to_block_spacing (c : String) (cur p : Span) (pr : Option Span) :
    (cur.text = " " → _append_to_block c cur pr = c) ∧
    (cur.text ≠ " " → cur.text ≠ "" → p.font = cur.font →
      _append_to_block c cur (some p) = c ++ " " ++ cur.text) := by
  constructor
  · intro h; simp [_append_to_block, h]
  · intro h1 h2 h3
    simp [_append_to_block, h1, h2, h3, strAppend_assoc]

theorem append_to_block_spacing_w :
    _append_to_block "Hello" ⟨"World", 12, "F", 0, 0⟩ (some ⟨"Hello", 12, "F", 0, 0⟩) =
      "Hello World" ∧
    _append_to_block "Hello " ⟨" ", 12, "F", 0, 0⟩ (some ⟨"Hello", 12, "F", 0, 0⟩) =
      "Hello " := by
  constructor
  · rw [(append_to_block_spacing "Hello" ⟨"World", 12, "F", 0, 0⟩
      ⟨"Hello", 12, "F", 0, 0⟩ none).2 (by decide) (by decide) rfl]
    decide
  · exact (append_to_block_spacing "Hello " ⟨" ", 12, "F", 0, 0⟩
      ⟨"Hello", 12, "F", 0, 0⟩ (some ⟨"Hello", 12, "F", 0, 0⟩)).1 rfl

/-! ## C5: code-font override in `_get_span_tag` -/

/-- C5: a run whose font name contains one of the case-insensitive keywords
`mono`, `courier`, `code`, `consolas` is tagged `code` regardless of its
size; otherwise the tag is the size→tag entry for the run's exact size,
defaulting to `paragraph` when that size is absent. -/
theorem spanTag_code_override (size_tag : List (ℚ × Tag)) (sp : Span) :
    ((∃ k ∈ CODE_FONT_KEYWORDS, hasSub (pyLower sp.font) k = true) →
      _get_span_tag size_tag sp = Tag.code) ∧
    ((∀ k ∈ CODE_FONT_KEYWORDS, hasSub (pyLower sp.font) k = false) →
      _get_span_tag size_tag sp = (dictGet size_tag sp.size).getD Tag.paragraph) := by
  constructor
  · rintro ⟨k, hk, hs⟩
    have hc : is_code_font sp.font = true := by
      simp only [is_code_font, List.any_eq_true]
      exact ⟨k, hk, hs⟩
    simp [_get_span_tag, hc]
  · intro h
    have hc : is_code_font sp.font = false := by
      simp only [is_code_font, List.any_eq_false]
      intro k hk
      simp [h k hk]
    simp [_get_span_tag, hc]

theorem spanTag_code_override_w :
    _get_span_tag [(20, Tag.header 1)] ⟨"x", 20, "Consolas-Bold", 0, 0⟩ = Tag.code :=
  (spanTag_code_override [(20, Tag.header 1)] ⟨"x", 20, "Consolas-Bold", 0, 0⟩).1
    ⟨"consolas", by decide, by decide⟩

/-! ## C10: margin filtering is keyed on the file name -/

/-- C10: a text block is subject to header/footer exclusion iff the
document's name ends with ".pdf" case-insensitively; a PDF block is dropped
exactly when its bounding-box top is above 50 or its bottom is below page
height minus 50, and for any other file name every text block proceeds to
line/span processing. -/
theorem margin_filter_by_name (size_tag : List (ℚ × Tag)) (docName : String)
    (ph : ℚ) (st : ExtractState) (b : Block) (hb : b.btype = TEXT_BLOCK_TYPE) :
    (pyEndsWith (pyLower docName) ".pdf" = true →
      ((b.bbox.y0 < 50 ∨ ph - 50 < b.bbox.y1) →
        processBlock size_tag docName (get_margins_for_document docName) ph st b = st) ∧
      (¬(b.bbox.y0 < 50 ∨ ph - 50 < b.bbox.y1) →
        processBlock size_tag docName (get_margins_for_document docName) ph st b =
          blockEnd (b.lines.foldl (processLine size_tag) st))) ∧
    (pyEndsWith (pyLower docName) ".pdf" = false →
      processBlock size_tag docName (get_margins_for_document docName) ph st b =
        blockEnd (b.lines.foldl (processLine size_tag) st)) := by
  constructor
  · intro hpdf
    constructor <;> intro hy <;>
      simp [processBlock, hb, TEXT_BLOCK_TYPE, should_skip_margin_filtering, hpdf,
        get_margins_for_document, PageMargins.header, PageMargins.footer, hy]
  · intro hpdf
    simp [processBlock, hb, TEXT_BLOCK_TYPE, should_skip_margin_filtering, hpdf,
      get_margins_for_document]

theorem margin_filter_by_name_w :
    processBlock [] "Book.PDF" (get_margins_for_document "Book.PDF") 800
      initExtractState ⟨0, ⟨0, 10, 10, 20⟩, [⟨[⟨"hdr", 12, "F", 0, 0⟩]⟩]⟩ =
      initExtractState ∧
    processBlock [] "book.epub" (get_margins_for_document "book.epub") 800
      initExtractState ⟨0, ⟨0, 10, 10, 20⟩, [⟨[⟨"hdr", 12, "F", 0, 0⟩]⟩]⟩ =
      blockEnd ((⟨0, ⟨0, 10, 10, 20⟩, [⟨[⟨"hdr", 12, "F", 0, 0⟩]⟩]⟩ : Block).lines.foldl
        (processLine []) initExtractState) :=
  ⟨((margin_filter_by_name [] "Book.PDF" 800 initExtractState
      ⟨0, ⟨0, 10, 10, 20⟩, [⟨[⟨"hdr", 12, "F", 0, 0⟩]⟩]⟩ rfl).1 (by decide)).1
      (Or.inl (by norm_num)),
    (margin_filter_by_name [] "book.epub" 800 initExtractState
      ⟨0, ⟨0, 10, 10, 20⟩, [⟨[⟨"hdr", 12, "F", 0, 0⟩]⟩]⟩ rfl).2 (by decide)⟩

/-! ## C3: the accumulator is flushed at every block end, not only at
tag changes and page ends -/

/-- Refutation of C3 as stated: in `docTwoBlocks` the two runs "A" and "B"
are consecutive, lie on the same page, survive margin filtering, and both
resolve to `paragraph`, yet they are emitted as two separate `TextSpan`s
(the second one even acquiring a leading space from the merge-free append
onto the freshly emptied accumulator), because the accumulator is flushed
at the end of the first layout block. -/
theorem extract_flush_counterexample :
    extract_text_with_tags docTwoBlocks [(12, Tag.paragraph)] =
      [⟨Tag.paragraph, "A"⟩, ⟨Tag.paragraph, " B"⟩] ∧
    (extract_text_with_tags docTwoBlocks [(12, Tag.paragraph)]).length ≠ 1 := by
  decide

/-! ## C7: error paths of `convert_document_to_markdown` -/

lemma analyzeLines_empty (lns : List Line)
    (acc : List (ℚ × FontMetrics) × List (ℚ × ℕ))
    (h : ∀ ln ∈ lns, ln.spans = []) : lns.foldl analyzeLineStep acc = acc := by
  induction lns generalizing acc with
  | nil => rfl
  | cons ln rest ih =>
    have h1 : ln.spans = [] := h ln (by simp)
    have h2 : analyzeLineStep acc ln = acc := by simp [analyzeLineStep, h1]
    rw [List.foldl_cons, h2]
    exact ih acc (fun l hl => h l (by simp [hl]))

lemma analyzeBlocks_empty (bs : List Block)
    (acc : List (ℚ × FontMetrics) × List (ℚ × ℕ))
    (h : ∀ b ∈ bs, b.btype = TEXT_BLOCK_TYPE → ∀ ln ∈ b.lines, ln.spans = []) :
    bs.foldl analyzeBlockStep acc = acc := by
  induction bs generalizing acc with
  | nil => rfl
  | cons b rest ih =>
    have h2 : analyzeBlockStep acc b = acc := by
      by_cases hb : b.btype = TEXT_BLOCK_TYPE
      · simp only [analyzeBlockStep, hb, if_pos rfl]
        exact analyzeLines_empty b.lines acc (h b (by simp) hb)
      · simp [analyzeBlockStep, hb]
    rw [List.foldl_cons, h2]
    exact ih acc (fun b' hb' => h b' (by simp [hb']))

lemma analyze_of_noRuns (doc : Doc) (h : noRuns doc) :
    analyze_document_fonts doc = ⟨[], []⟩ := by
  have hfold : doc.pages.foldl analyzePageStep ([], []) = ([], []) := by
    generalize hps : doc.pages = ps at h ⊢
    have h' : ∀ p ∈ ps, ∀ b ∈ p.blocks.getD [], b.btype = TEXT_BLOCK_TYPE →
        ∀ ln ∈ b.lines, ln.spans = [] := by
      intro p hp
      exact h p (by rw [hps]; exact hp)
    clear h hps
    induction ps with
    | nil => rfl
    | cons p rest ih =>
      have h2 : analyzePageStep ([], []) p = ([], []) := by
        cases hb : p.blocks with
        | none => simp [analyzePageStep, hb]
        | some bs =>
          simp only [analyzePageStep, hb]
          refine analyzeBlocks_empty bs ([], []) ?_
          have := h' p (by simp)
          rw [hb] at this
          exact this
      rw [List.foldl_cons, h2]
      exact ih (fun p' hp' => h' p' (by simp [hp']))
  simp [analyze_document_fonts, hfold]

/-- C7: when the input path does not exist, `convert_document_to_markdown`
raises the not-found error to its caller and produces no output; when the
document opens but contains zero extractable text runs, it prints a
user-facing error message, writes no output, and raises nothing. -/
theorem convert_error_paths (opened : OpenResult) (doc : Doc) :
    convert_document_to_markdown false opened = ⟨true, none, none⟩ ∧
    (noRuns doc →
      convert_document_to_markdown true (OpenResult.ok doc) =
        ⟨false, some "No text found. This document might be scanned (images only).",
          none⟩) := by
  constructor
  · simp [convert_document_to_markdown]
  · intro h
    have ha := analyze_of_noRuns doc h
    simp [convert_document_to_markdown, ha, DocumentFontAnalysis.is_empty]

theorem convert_error_paths_w :
    convert_document_to_markdown false OpenResult.failure = ⟨true, none, none⟩ ∧
    convert_document_to_markdown true
        (OpenResult.ok ⟨"scan.pdf", [⟨800, some [⟨0, ⟨0, 100, 10, 110⟩, [⟨[]⟩]⟩]⟩]⟩) =
      ⟨false, some "No text found. This document might be scanned (images only).",
        none⟩ :=
  ⟨(convert_error_paths OpenResult.failure ⟨"", []⟩).1,
    (convert_error_paths OpenResult.failure
      ⟨"scan.pdf", [⟨800, some [⟨0, ⟨0, 100, 10, 110⟩, [⟨[]⟩]⟩]⟩]⟩).2 (by decide)⟩

/-! ## C6: the formatter never leaves an unterminated fence -/

lemma mem_of_mem_dropWhile {c : Char} {p : Char → Bool} :
    ∀ {l : List Char}, c ∈ l.dropWhile p → c ∈ l := by
  intro l
  induction l with
  | nil => simp [List.dropWhile]
  | cons x rest ih =>
    intro h
    rw [List.dropWhile_cons] at h
    by_cases hx : p x = true
    · simp only [hx, if_pos rfl] at h
      exact List.mem_cons_of_mem x (ih h)
    · simp only [hx] at h
      simpa using h

lemma mem_of_mem_trimChars {c : Char} {l : List Char} (h : c ∈ trimChars l) :
    c ∈ l := by
  unfold trimChars at h
  rw [List.mem_reverse] at h
  have h2 := mem_of_mem_dropWhile h
  rw [List.mem_reverse] at h2
  exact mem_of_mem_dropWhile h2

lemma mem_collapseAux {c : Char} :
    ∀ {b : Bool} {l : List Char}, c ∈ collapseAux b l → c = ' ' ∨ c ∈ l := by
  intro b l
  induction l generalizing b with
  | nil =>
    intro h
    exact absurd h (List.not_mem_nil c)
  | cons x rest ih =>
    intro h
    unfold collapseAux at h
    split_ifs at h with hw hb
    · rw [List.nil_append] at h
      rcases ih h with h' | h'
      · exact Or.inl h'
      · exact Or.inr (List.mem_cons_of_mem x h')
    · rw [List.singleton_append, List.mem_cons] at h
      rcases h with h' | h'
      · exact Or.inl h'
      · rcases ih h' with h'' | h''
        · exact Or.inl h''
        · exact Or.inr (List.mem_cons_of_mem x h'')
    · rw [List.mem_cons] at h
      rcases h with h' | h'
      · exact Or.inr (by simp [h'])
      · rcases ih h' with h'' | h''
        · exact Or.inl h''
        · exact Or.inr (List.mem_cons_of_mem x h'')

lemma tick_not_mem_clean {s : String} (h : tickChar ∉ s.toList) :
    tickChar ∉ (pyCollapseWs (pyStrip s)).toList := by
  intro hm
  have hm' : tickChar ∈ collapseAux false (trimChars s.toList) := hm
  rcases mem_collapseAux hm' with h' | h'
  · exact absurd h' (by decide)
  · exact h (mem_of_mem_trimChars h')

lemma countTick_append (a b : String) :
    countTick (a ++ b) = countTick a + countTick b := by
  simp [countTick, strToList_append, List.count_append]

lemma countTick_eq_zero {s : String} (h : tickChar ∉ s.toList) : countTick s = 0 := by
  simpa [countTick] using List.count_eq_zero.mpr h

lemma countTick_hashes (n : ℕ) : countTick (String.mk (List.replicate n '#')) = 0 := by
  apply countTick_eq_zero
  intro h
  have := List.eq_of_mem_replicate h
  exact absurd this (by decide)

lemma countTick_fence_open : countTick "\n```\n" = 3 := by decide

lemma countTick_fence_close : countTick "```\n\n" = 3 := by decide

lemma countTick_fence_final : countTick "```\n" = 3 := by decide

lemma countTick_nl : countTick "\n" = 0 := by decide

lemma countTick_nl2 : countTick "\n\n" = 0 := by decide

lemma countTick_space : countTick " " = 0 := by decide

lemma countTick_star : countTick "*" = 0 := by decide

lemma countTick_star_nl : countTick "*\n\n" = 0 := by decide

/-- The fence-balance measure: backticks already emitted plus the three the
pending close of an open fence will emit. -/
def tickBal (st : FmtState) : ℕ :=
  countTick st.markdown_output + (if st.in_code_block then 3 else 0)

lemma formatStep_tickBal (st : FmtState) (ts : TextSpan)
    (h : tickChar ∉ ts.content.toList) :
    tickBal (formatStep st ts) % 6 = tickBal st % 6 := by
  by_cases h0 : pyStrip ts.content = ""
  · simp [formatStep, h0]
  · have hc : countTick (pyCollapseWs (pyStrip ts.content)) = 0 :=
      countTick_eq_zero (tick_not_mem_clean h)
    by_cases ht : ts.tag = Tag.code
    · cases hic : st.in_code_block
      · simp [formatStep, h0, ht, _append_code_block, hic, tickBal,
          countTick_append, hc, countTick_fence_open, countTick_nl]
        omega
      · simp [formatStep, h0, ht, _append_code_block, hic, tickBal,
          countTick_append, hc, countTick_fence_open, countTick_nl]
    · have happ : ∀ out : String,
          countTick (_append_formatted_content out ts.tag
            (pyCollapseWs (pyStrip ts.content))) = countTick out := by
        intro out
        cases htag : ts.tag with
        | code => exact absurd htag ht
        | paragraph =>
          simp [_append_formatted_content, countTick_append, hc, countTick_nl2]
        | small =>
          simp [_append_formatted_content, countTick_append, hc, countTick_star,
            countTick_star_nl]
        | header L =>
          simp [_append_formatted_content, _append_header, countTick_append, hc,
            countTick_hashes, countTick_nl, countTick_nl2, countTick_space]
      cases hic : st.in_code_block <;>
        simp [formatStep, h0, ht, hic, tickBal, happ, countTick_append,
          countTick_fence_close]

lemma formatLoop_tickBal (spans : List TextSpan) :
    ∀ st : FmtState, (∀ sp ∈ spans, tickChar ∉ sp.content.toList) →
      tickBal (spans.foldl formatStep st) % 6 = tickBal st % 6 := by
  induction spans with
  | nil => intro st _; rfl
  | cons sp rest ih =>
    intro st h
    rw [List.foldl_cons]
    rw [ih (formatStep st sp) (fun x hx => h x (by simp [hx]))]
    exact formatStep_tickBal st sp (h sp (by simp))

/-- C6: `format_markdown` never leaves an unterminated fence — whenever the
span contents themselves contain no backtick, the backticks of the rendered
output come only from complete open/close fence pairs (three backticks each),
so their total is a multiple of six; in particular a sequence ending inside
a code block still gets its closing fence. -/
theorem fences_balanced (text_spans : List TextSpan)
    (h : ∀ sp ∈ text_spans, tickChar ∉ sp.content.toList) :
    countTick (format_markdown text_spans) % 6 = 0 := by
  have hb := formatLoop_tickBal text_spans ⟨"", false⟩ h
  have hinit : tickBal (⟨"", false⟩ : FmtState) = 0 := by decide
  rw [hinit] at hb
  have hgoal : format_markdown text_spans =
      if (text_spans.foldl formatStep ⟨"", false⟩).in_code_block then
        (text_spans.foldl formatStep ⟨"", false⟩).markdown_output ++ "```\n"
      else (text_spans.foldl formatStep ⟨"", false⟩).markdown_output := rfl
  rw [hgoal]
  cases hic : (text_spans.foldl formatStep ⟨"", false⟩).in_code_block
  · simp only [tickBal, hic, Bool.false_eq_true, if_neg, ite_false] at hb ⊢
    omega
  · simp only [tickBal, hic, if_pos, ite_true] at hb ⊢
    rw [countTick_append, countTick_fence_final]
    omega

theorem fences_balanced_w :
    countTick (format_markdown [⟨Tag.code, "x = 1"⟩]) % 6 = 0 :=
  fences_balanced [⟨Tag.code, "x = 1"⟩] (by decide)

/-- C3 (amended): the accumulator is flushed when a run's resolved tag
differs from the accumulator's tag or at the end of each surviving text
block (hence also at every page end) — a subsequent same-tag run is always
merged into the accumulator without emitting anything, while after every
text block that survives the margin filter the accumulator's content is
blank, so two consecutive same-tag runs share an emitted `TextSpan` only
when they lie in the same layout block. -/
theorem flush_policy (size_tag : List (ℚ × Tag)) (st : ExtractState) (sp : Span)
    (h1 : st.first_span = false)
    (h2 : _get_span_tag size_tag sp = st.current_block_tag) :
    ((processSpan size_tag st sp).text_spans = st.text_spans ∧
      (processSpan size_tag st sp).current_block_content =
        _append_to_block st.current_block_content sp st.previous_span) ∧
    ∀ (docName : String) (m : PageMargins) (ph : ℚ) (st2 : ExtractState) (b : Block),
      b.btype = TEXT_BLOCK_TYPE →
      (should_skip_margin_filtering docName = true ∨
        ¬(b.bbox.y0 < m.header ∨ ph - m.footer < b.bbox.y1)) →
      stripNonEmpty (processBlock size_tag docName m ph st2 b).current_block_content =
        false := by
  constructor
  · constructor <;> simp [processSpan, h1, h2]
  · intro docName m ph st2 b hb hs
    have hcond : ¬(should_skip_margin_filtering docName = false ∧
        (b.bbox.y0 < m.header ∨ ph - m.footer < b.bbox.y1)) := by
      rcases hs with hs | hs
      · rintro ⟨hf, -⟩
        rw [hs] at hf
        exact Bool.noConfusion hf
      · rintro ⟨-, hy⟩
        exact hs hy
    have hblock : processBlock size_tag docName m ph st2 b =
        blockEnd (b.lines.foldl (processLine size_tag) st2) := by
      simp [processBlock, hb, TEXT_BLOCK_TYPE, hcond]
    rw [hblock]
    unfold blockEnd
    by_cases he : stripNonEmpty
        (b.lines.foldl (processLine size_tag) st2).current_block_content = true
    · rw [if_pos he]
      show stripNonEmpty "" = false
      decide
    · rw [if_neg he]
      simpa using he

theorem flush_policy_w :
    ((processSpan [(12, Tag.paragraph)]
        ⟨false, some ⟨"A", 12, "F", 0, 0⟩, Tag.paragraph, "A", []⟩
        ⟨"B", 12, "F", 0, 0⟩).text_spans = [] ∧
      (processSpan [(12, Tag.paragraph)]
        ⟨false, some ⟨"A", 12, "F", 0, 0⟩, Tag.paragraph, "A", []⟩
        ⟨"B", 12, "F", 0, 0⟩).current_block_content =
        _append_to_block "A" ⟨"B", 12, "F", 0, 0⟩ (some ⟨"A", 12, "F", 0, 0⟩)) ∧
    stripNonEmpty ((processBlock [(12, Tag.paragraph)] "b.epub" ⟨0, 0⟩ 800
        initExtractState
        ⟨0, ⟨0, 100, 10, 110⟩, [⟨[⟨"A", 12, "F", 0, 0⟩]⟩]⟩).current_block_content) =
      false :=
  ⟨(flush_policy [(12, Tag.paragraph)]
      ⟨false, some ⟨"A", 12, "F", 0, 0⟩, Tag.paragraph, "A", []⟩
      ⟨"B", 12, "F", 0, 0⟩ rfl (by decide)).1,
    (flush_policy [(12, Tag.paragraph)]
      ⟨false, some ⟨"A", 12, "F", 0, 0⟩, Tag.paragraph, "A", []⟩
      ⟨"B", 12, "F", 0, 0⟩ rfl (by decide)).2 "b.epub" ⟨0, 0⟩ 800
      initExtractState ⟨0, ⟨0, 100, 10, 110⟩, [⟨[⟨"A", 12, "F", 0, 0⟩]⟩]⟩ rfl
      (Or.inl (by decide))⟩

/-! ## C1 and C2: structure of the size→tag mapping -/

instance : IsTotal ℚ (fun a b => b ≤ a) := ⟨fun a b => le_total b a⟩

instance : IsTrans ℚ (fun a b => b ≤ a) := ⟨fun _ _ _ h1 h2 => le_trans h2 h1⟩

lemma buildLoop_eq_spec (fs : List (ℚ × FontMetrics)) (ps : ℚ) :
    ∀ (sizes : List ℚ) (hl : ℕ),
      (∀ s ∈ sizes, (lookupStyle fs s).map FontMetrics.size = some s) →
      buildLoop fs ps sizes hl = tagLoopSpec ps sizes hl := by
  intro sizes
  induction sizes with
  | nil => intro hl _; rfl
  | cons s rest ih =>
    intro hl h
    have hs := h s (by simp)
    cases hm : lookupStyle fs s with
    | none => rw [hm] at hs; simp at hs
    | some m =>
      rw [hm] at hs
      simp only [Option.map_some'] at hs
      have hms : m.size = s := Option.some.inj hs
      have hrest : ∀ x ∈ rest, (lookupStyle fs x).map FontMetrics.size = some x :=
        fun x hx => h x (by simp [hx])
      have hdet : _determine_tag_for_size s ps hl fs =
          (if s = ps then Tag.paragraph
            else if ps < s then Tag.header (hl + 1) else Tag.small) := by
        simp only [_determine_tag_for_size, hm, hms]
      show (s, _determine_tag_for_size s ps hl fs) ::
          buildLoop fs ps rest
            (if isHeaderTag (_determine_tag_for_size s ps hl fs) then hl + 1 else hl) =
        tagLoopSpec ps (s :: rest) hl
      rw [hdet]
      unfold tagLoopSpec
      by_cases h1 : s = ps
      · simp [h1, isHeaderTag, ih hl hrest]
      · by_cases h2 : ps < s
        · simp [h1, h2, isHeaderTag, ih (hl + 1) hrest]
        · simp [h1, h2, isHeaderTag, ih hl hrest]

lemma tagLoopSpec_filter_para (ps : ℚ) :
    ∀ (sizes : List ℚ) (hl : ℕ),
      (tagLoopSpec ps sizes hl).filter (fun e => decide (e.2 = Tag.paragraph)) =
        (sizes.filter (fun s => decide (s = ps))).map (fun s => (s, Tag.paragraph)) := by
  intro sizes
  induction sizes with
  | nil => intro hl; rfl
  | cons s rest ih =>
    intro hl
    by_cases h1 : s = ps
    · simp [tagLoopSpec, h1, ih hl]
    · by_cases h2 : ps < s <;>
        simp [tagLoopSpec, h1, h2, ih hl, ih (hl + 1)]

lemma tagLoopSpec_small (ps : ℚ) :
    ∀ (sizes : List ℚ) (hl : ℕ),
      ∀ e ∈ tagLoopSpec ps sizes hl, e.1 < ps → e.2 = Tag.small := by
  intro sizes
  induction sizes with
  | nil => intro hl e he; exact absurd he (List.not_mem_nil e)
  | cons s rest ih =>
    intro hl e he hlt
    by_cases h1 : s = ps
    · rw [tagLoopSpec, if_pos h1] at he
      rcases List.mem_cons.mp he with rfl | hm
      · exact absurd hlt (by simp [h1])
      · exact ih hl e hm hlt
    · by_cases h2 : ps < s
      · rw [tagLoopSpec, if_neg h1, if_pos h2] at he
        rcases List.mem_cons.mp he with rfl | hm
        · exact absurd hlt (by simp; exact le_of_lt h2)
        · exact ih (hl + 1) e hm hlt
      · rw [tagLoopSpec, if_neg h1, if_neg h2] at he
        rcases List.mem_cons.mp he with rfl | hm
        · rfl
        · exact ih hl e hm hlt

lemma tagLoopSpec_filter_big (ps : ℚ) :
    ∀ (sizes : List ℚ) (hl : ℕ),
      (tagLoopSpec ps sizes hl).filter (fun e => decide (ps < e.1)) =
        (List.enumFrom hl (sizes.filter (fun s => decide (ps < s)))).map
          (fun q => (q.2, Tag.header (q.1 + 1))) := by
  intro sizes
  induction sizes with
  | nil => intro hl; rfl
  | cons s rest ih =>
    intro hl
    by_cases h1 : s = ps
    · have h2 : ¬ ps < s := by simp [h1]
      simp [tagLoopSpec, h1, h2, ih hl]
    · by_cases h2 : ps < s
      · simp [tagLoopSpec, h1, h2, List.enumFrom, ih (hl + 1)]
      · simp [tagLoopSpec, h1, h2, ih hl]

lemma filter_eq_singleton {l : List ℚ} {a : ℚ} (h1 : l.Nodup) (h2 : a ∈ l) :
    l.filter (fun s => decide (s = a)) = [a] := by
  induction l with
  | nil => exact absurd h2 (List.not_mem_nil a)
  | cons x rest ih =>
    rcases List.mem_cons.mp h2 with heq | hmem
    · subst heq
      have hx : a ∉ rest := (List.nodup_cons.mp h1).1
      have hrest : rest.filter (fun s => decide (s = a)) = [] := by
        rw [List.filter_eq_nil_iff]
        intro b hb
        simp only [decide_eq_true_eq]
        rintro rfl
        exact hx hb
      simp [hrest]
    · have hx : x ≠ a := by
        rintro rfl
        exact (List.nodup_cons.mp h1).1 hmem
      simp [hx, ih (List.nodup_cons.mp h1).2 hmem]

lemma unique_sizes_nodup (ff : List (ℚ × ℕ)) :
    (_extract_unique_font_sizes ff).Nodup :=
  ((List.perm_insertionSort _ _).nodup_iff).mpr (List.nodup_dedup _)

lemma unique_sizes_mem (ff : List (ℚ × ℕ)) (a : ℚ) (h : a ∈ ff.map Prod.fst) :
    a ∈ _extract_unique_font_sizes ff := by
  unfold _extract_unique_font_sizes
  rw [List.mem_insertionSort]
  exact List.mem_dedup.mpr h

lemma unique_sizes_sorted (ff : List (ℚ × ℕ)) :
    List.Pairwise (fun a b => b < a) (_extract_unique_font_sizes ff) := by
  have hs : List.Pairwise (fun a b : ℚ => b ≤ a) (_extract_unique_font_sizes ff) :=
    List.sorted_insertionSort _ _
  have hn : List.Pairwise (fun a b : ℚ => a ≠ b) (_extract_unique_font_sizes ff) :=
    unique_sizes_nodup ff
  exact (hs.and hn).imp (fun h => lt_of_le_of_ne h.1 (Ne.symm h.2))

lemma sizeKeyed_sizes (ff : List (ℚ × ℕ)) (fs : List (ℚ × FontMetrics))
    (hok : sizeKeyed ff fs) :
    ∀ s ∈ _extract_unique_font_sizes ff,
      (lookupStyle fs s).map FontMetrics.size = some s := by
  intro s hs
  have hmem : s ∈ ff.map Prod.fst := by
    unfold _extract_unique_font_sizes at hs
    rw [List.mem_insertionSort] at hs
    exact List.mem_dedup.mp hs
  obtain ⟨e, he, rfl⟩ := List.mem_map.mp hmem
  exact hok e he

/-- C1: for a document with at least one text run, size-only identifiers
and a metrics entry for each of them, `build_from_fonts` succeeds, assigns
`paragraph` to exactly one size — the size of the most frequent identifier —
and tags every strictly smaller size `small`. -/
theorem build_paragraph_unique (ff : List (ℚ × ℕ)) (fs : List (ℚ × FontMetrics))
    (e0 : ℚ × ℕ) (rest : List (ℚ × ℕ)) (hne : ff = e0 :: rest)
    (hok : sizeKeyed ff fs) :
    ∃ tm, build_from_fonts ff fs = some tm ∧
      tm.filter (fun e => decide (e.2 = Tag.paragraph)) = [(e0.1, Tag.paragraph)] ∧
      ∀ e ∈ tm, e.1 < e0.1 → e.2 = Tag.small := by
  subst hne
  have h0 := hok e0 (by simp)
  cases hm : lookupStyle fs e0.1 with
  | none => rw [hm] at h0; simp at h0
  | some m =>
    rw [hm] at h0
    simp only [Option.map_some'] at h0
    have hms : m.size = e0.1 := Option.some.inj h0
    have hsz := sizeKeyed_sizes (e0 :: rest) fs hok
    refine ⟨buildLoop fs e0.1 (_extract_unique_font_sizes (e0 :: rest)) 0, ?_, ?_, ?_⟩
    · simp [build_from_fonts, _extract_paragraph_size, hm, hms]
    · rw [buildLoop_eq_spec fs e0.1 _ 0 hsz, tagLoopSpec_filter_para,
        filter_eq_singleton (unique_sizes_nodup (e0 :: rest))
          (unique_sizes_mem (e0 :: rest) e0.1 (by simp))]
      rfl
    · intro e he hlt
      rw [buildLoop_eq_spec fs e0.1 _ 0 hsz] at he
      exact tagLoopSpec_small e0.1 _ 0 e he hlt

/-- C2: under the same well-formedness, the sizes strictly greater than the
paragraph size receive, in the strictly decreasing order in which they occur
in the mapping, the header tags `header 1`, `header 2`, … — each level used
exactly once, the largest size getting level 1. -/
theorem build_header_levels (ff : List (ℚ × ℕ)) (fs : List (ℚ × FontMetrics))
    (e0 : ℚ × ℕ) (rest : List (ℚ × ℕ)) (hne : ff = e0 :: rest)
    (hok : sizeKeyed ff fs) :
    ∃ tm, build_from_fonts ff fs = some tm ∧
      tm.filter (fun e => decide (e0.1 < e.1)) =
        (List.enumFrom 0 ((_extract_unique_font_sizes ff).filter
          (fun s => decide (e0.1 < s)))).map (fun q => (q.2, Tag.header (q.1 + 1))) ∧
      List.Pairwise (fun a b => b < a)
        ((_extract_unique_font_sizes ff).filter (fun s => decide (e0.1 < s))) := by
  subst hne
  have h0 := hok e0 (by simp)
  cases hm : lookupStyle fs e0.1 with
  | none => rw [hm] at h0; simp at h0
  | some m =>
    rw [hm] at h0
    simp only [Option.map_some'] at h0
    have hms : m.size = e0.1 := Option.some.inj h0
    have hsz := sizeKeyed_sizes (e0 :: rest) fs hok
    refine ⟨buildLoop fs e0.1 (_extract_unique_font_sizes (e0 :: rest)) 0, ?_, ?_, ?_⟩
    · simp [build_from_fonts, _extract_paragraph_size, hm, hms]
    · rw [buildLoop_eq_spec fs e0.1 _ 0 hsz, tagLoopSpec_filter_big]
    · exact (unique_sizes_sorted (e0 :: rest)).sublist (List.filter_sublist _)

theorem build_paragraph_unique_w :
    ∃ tm, build_from_fonts [(12, 5), (18, 2), (9, 1)]
        [(12, ⟨12, "Body", 0, 0⟩), (18, ⟨18, "Title", 0, 0⟩), (9, ⟨9, "Note", 0, 0⟩)] =
        some tm ∧
      tm.filter (fun e => decide (e.2 = Tag.paragraph)) = [(12, Tag.paragraph)] ∧
      ∀ e ∈ tm, e.1 < 12 → e.2 = Tag.small :=
  build_paragraph_unique [(12, 5), (18, 2), (9, 1)]
    [(12, ⟨12, "Body", 0, 0⟩), (18, ⟨18, "Title", 0, 0⟩), (9, ⟨9, "Note", 0, 0⟩)]
    (12, 5) [(18, 2), (9, 1)] rfl (by decide)

theorem build_header_levels_w :
    ∃ tm, build_from_fonts [(12, 5), (18, 2), (9, 1), (24, 1)]
        [(12, ⟨12, "Body", 0, 0⟩), (18, ⟨18, "Title", 0, 0⟩), (9, ⟨9, "Note", 0, 0⟩),
          (24, ⟨24, "Big", 0, 0⟩)] = some tm ∧
      tm.filter (fun e => decide ((12 : ℚ) < e.1)) =
        (List.enumFrom 0
          ((_extract_unique_font_sizes [(12, 5), (18, 2), (9, 1), (24, 1)]).filter
            (fun s => decide ((12 : ℚ) < s)))).map
          (fun q => (q.2, Tag.header (q.1 + 1))) ∧
      List.Pairwise (fun a b => b < a)
        ((_extract_unique_font_sizes [(12, 5), (18, 2), (9, 1), (24, 1)]).filter
          (fun s => decide ((12 : ℚ) < s))) :=
  build_header_levels [(12, 5), (18, 2), (9, 1), (24, 1)]
    [(12, ⟨12, "Body", 0, 0⟩), (18, ⟨18, "Title", 0, 0⟩), (9, ⟨9, "Note", 0, 0⟩),
      (24, ⟨24, "Big", 0, 0⟩)]
    (12, 5) [(18, 2), (9, 1), (24, 1)] rfl (by decide)
